import Mathlib

/-!
Verification of the `ollama_server` CLI chat client (`src/scripts/cli_chat.py`)
against its natural-language specification.

The development shallowly embeds the two components with decision logic:

* the model-name resolver `resolve_model` (cli_chat.py lines 257-306), and
* the streaming transcript reader `stream_response` (cli_chat.py lines 349-453),

together with the per-turn transcript handling of `interactive`
(cli_chat.py lines 591-611).

Python strings are modelled as Lean `String` (a list of code points, matching
Python's view of `str`); Python string primitives used by the source
(`split(':',1)[0]`, `startswith`, the substring operator `in`, `strip`,
`isdigit`/`int`) are embedded as functions on the underlying character lists.
Network calls are modelled by passing their results as explicit arguments
(the `/tags` result becomes the `localModels` list; the streaming `/chat`
body becomes a list of decoded lines).
-/

namespace CliChat

/-! ## Python string primitives -/

/-- Python `m.split(':', 1)[0]`: the text before the first `':'`
(the whole string when there is no `':'`). -/
def pySplitBase (m : String) : String :=
  String.mk (m.data.takeWhile (fun c => c != ':'))

/-- Python `m.startswith(r)`, as used in `resolve_model` (line 282). -/
def pyStartsWith (r m : String) : Bool :=
  r.data.isPrefixOf m.data

/-- Python substring containment `r in m`, as used in `resolve_model`
(line 294). -/
def pyContains (r m : String) : Bool :=
  decide (r.data <:+: m.data)

/-- Python `sel.strip()`: drop leading and trailing whitespace.  (Python also
strips a few non-ASCII whitespace code points; those are outside the modelled
input alphabet.) -/
def pyStrip (s : String) : String :=
  String.mk (((s.data.dropWhile Char.isWhitespace).reverse.dropWhile
    Char.isWhitespace).reverse)

/-- Python `sel.isdigit()` followed by `int(sel)` (lines 278, 290, 302):
succeeds exactly on non-empty all-(ASCII-)digit strings and returns their
decimal value.  (Python's `isdigit` also accepts some non-ASCII digit
characters; those are outside the modelled input alphabet.) -/
def parseSelection (sel : String) : Option Nat :=
  if sel.data ≠ [] ∧ sel.data.all Char.isDigit then
    some (sel.data.foldl (fun acc c => 10 * acc + (c.toNat - 48)) 0)
  else none

/-! ## Model resolver

Embedding of `resolve_model(host, requested_model, interactive=True)`
(cli_chat.py lines 257-306).  The call `list_local_models(host)` (line 259)
is replaced by the explicit argument `localModels` holding the `/tags`
result; the single `input()` call the function can make on an ambiguous
match is replaced by the explicit argument `sel` holding the raw line the
user would type (each ambiguous branch returns immediately after its prompt,
so one string suffices for any execution). -/

/-- The three identical disambiguation-prompt blocks of `resolve_model`
(lines 277-280, 289-292, 301-304): strip the typed selection, and if it is a
digit string whose value is in `[1, len(candidates)]` return that candidate
(1-based), otherwise cancel with `None`. -/
def promptSelect (candidates : List String) (sel : String) : Option String :=
  match parseSelection (pyStrip sel) with
  | some n => if 1 ≤ n ∧ n ≤ candidates.length then candidates[n - 1]? else none
  | none => none

/-- `base_matches` (line 270): locally available names whose base
(text before the first `':'`) equals the requested name.
-/
def baseM (r : String) (localModels : List String) : List String :=
  localModels.filter (fun m => pySplitBase m == r)

/-- `starts` (line 282): locally available names starting with the requested
name. -/
def startsM (r : String) (localModels : List String) : List String :=
  localModels.filter (fun m => pyStartsWith r m)

/-- `contains` (line 294): locally available names containing the requested
name as a substring. -/
def containsM (r : String) (localModels : List String) : List String :=
  localModels.filter (fun m => pyContains r m)

/-- Embedding of `resolve_model` (cli_chat.py lines 257-306).  Mirrors the
source's control flow: empty model list fails at once; exact match, then
`r + ":latest"`, then unique base-name match, then (on an ambiguous base
match, only when interactive) the prompt; then the same for the
starts-with and substring strategies; finally `None`.  Note that an
ambiguous strategy with `interactive = false` falls through to the next
strategy, exactly as the source does. -/
def resolve_model (r : String) (localModels : List String)
    (interactive : Bool) (sel : String) : Option String :=
  if localModels.isEmpty then none
  else if r ∈ localModels then some r
  else if (r ++ ":latest") ∈ localModels then some (r ++ ":latest")
  else if (baseM r localModels).length = 1 then (baseM r localModels).head?
  else if 1 < (baseM r localModels).length ∧ interactive = true then
    promptSelect (baseM r localModels) sel
  else if (startsM r localModels).length = 1 then (startsM r localModels).head?
  else if 1 < (startsM r localModels).length ∧ interactive = true then
    promptSelect (startsM r localModels) sel
  else if (containsM r localModels).length = 1 then (containsM r localModels).head?
  else if 1 < (containsM r localModels).length ∧ interactive = true then
    promptSelect (containsM r localModels) sel
  else none

/-! ### The specification's matching cascade (for the refinement claim C3)

`specCascade` below is deliberately written from the WORDS of spec.md §4.1,
to be compared with the source-derived `resolve_model`:
an ordered cascade (exact, `:latest`, base name, starts-with, substring)
that stops at the first strategy yielding exactly one match, prompts at the
first strategy yielding more than one match when interaction is allowed,
fails deterministically there when interaction is not allowed, and falls
through on zero matches, ending in `NotFound` (modelled, like every failure
of the source function, as `none`). -/

/-- One strategy step of the spec's cascade (spec.md §4.1, strategies 3-5):
exactly one candidate returns it; more than one prompts (interaction
allowed) or fails (interaction not allowed); zero falls through. -/
def stage (interactive : Bool) (sel : String) (cands : List String)
    (fallback : Option String) : Option String :=
  if cands.length = 1 then cands.head?
  else if 1 < cands.length then
    (if interactive = true then promptSelect cands sel else none)
  else fallback

/-- The resolver as described by spec.md §4.1, strategies in fixed order,
with an exact match (and the `:latest` variant) short-circuiting. -/
def specCascade (r : String) (localModels : List String)
    (interactive : Bool) (sel : String) : Option String :=
  if localModels.isEmpty then none
  else if r ∈ localModels then some r
  else if (r ++ ":latest") ∈ localModels then some (r ++ ":latest")
  else
    stage interactive sel (baseM r localModels)
      (stage interactive sel (startsM r localModels)
        (stage interactive sel (containsM r localModels) none))

/-! ### Monotonicity of the three filters -/

theorem pyStartsWith_of_base {r m : String} (h : (pySplitBase m == r) = true) :
    pyStartsWith r m = true := by
  have hb : pySplitBase m = r := by exact beq_iff_eq.mp h
  have hdata : r.data = m.data.takeWhile (fun c => c != ':') := by
    have := congrArg String.data hb
    simpa [pySplitBase] using this.symm
  have hpre : r.data <+: m.data := by
    rw [hdata]
    exact List.takeWhile_prefix _
  simpa [pyStartsWith] using List.isPrefixOf_iff_prefix.mpr hpre

theorem pyContains_of_pyStartsWith {r m : String} (h : pyStartsWith r m = true) :
    pyContains r m = true := by
  have hpre : r.data <+: m.data := by
    simpa [pyStartsWith] using h
  simpa [pyContains] using hpre.isInfix

theorem baseM_length_le (r : String) (localModels : List String) :
    (baseM r localModels).length ≤ (startsM r localModels).length := by
  exact List.Sublist.length_le
    (List.monotone_filter_right localModels (fun m hm => pyStartsWith_of_base hm))

theorem startsM_length_le (r : String) (localModels : List String) :
    (startsM r localModels).length ≤ (containsM r localModels).length := by
  exact List.Sublist.length_le
    (List.monotone_filter_right localModels (fun m hm => pyContains_of_pyStartsWith hm))

theorem resolve_model_eq_specCascade (r : String) (localModels : List String)
    (interactive : Bool) (sel : String) :
    resolve_model r localModels interactive sel =
      specCascade r localModels interactive sel := by
  have hBS := baseM_length_le r localModels
  have hSC := startsM_length_le r localModels
  unfold resolve_model specCascade
  by_cases h0 : localModels.isEmpty
  · simp [h0]
  by_cases h1 : r ∈ localModels
  · simp [h0, h1]
  by_cases h2 : (r ++ ":latest") ∈ localModels
  · simp [h0, h1, h2]
  simp only [h0, h1, h2, if_false]
  rcases Nat.lt_trichotomy (baseM r localModels).length 1 with hB | hB | hB
  · -- zero base matches: both sides continue with the starts-with strategy
    have hB0 : (baseM r localModels).length = 0 := by omega
    have hB1 : ¬ (baseM r localModels).length = 1 := by omega
    have hB2 : ¬ (1 < (baseM r localModels).length ∧ interactive = true) := by
      intro h; omega
    simp only [hB1, hB2, if_false, stage]
    simp only [hB0, if_false]
    rcases Nat.lt_trichotomy (startsM r localModels).length 1 with hS | hS | hS
    · have hS0 : (startsM r localModels).length = 0 := by omega
      have hS1 : ¬ (startsM r localModels).length = 1 := by omega
      have hS2 : ¬ (1 < (startsM r localModels).length ∧ interactive = true) := by
        intro h; omega
      simp only [hS1, hS2, if_false, hS0]
      rcases Nat.lt_trichotomy (containsM r localModels).length 1 with hC | hC | hC
      · have hC1 : ¬ (containsM r localModels).length = 1 := by omega
        have hC2 : ¬ (1 < (containsM r localModels).length ∧ interactive = true) := by
          intro h; omega
        have hC3 : ¬ 1 < (containsM r localModels).length := by omega
        simp [hC1, hC2, hC3]
      · simp [hC, stage]
      · have hC1 : ¬ (containsM r localModels).length = 1 := by omega
        cases interactive with
        | true => simp [hC1, hC, stage]
        | false =>
          have hC2 : ¬ (1 < (containsM r localModels).length ∧ False) := by
            intro h; exact h.2
          simp [hC1, hC, stage]
    · simp [hS, stage]
    · -- ambiguous starts-with strategy
      have hS1 : ¬ (startsM r localModels).length = 1 := by omega
      have hC : 1 < (containsM r localModels).length := by omega
      have hC1 : ¬ (containsM r localModels).length = 1 := by omega
      cases interactive with
      | true => simp [hS1, hS, stage]
      | false => simp [hS1, hS, hC1, hC, stage]
  · -- exactly one base match
    simp [hB, stage]
  · -- ambiguous base-name strategy
    have hB1 : ¬ (baseM r localModels).length = 1 := by omega
    have hS : 1 < (startsM r localModels).length := by omega
    have hS1 : ¬ (startsM r localModels).length = 1 := by omega
    have hC : 1 < (containsM r localModels).length := by omega
    have hC1 : ¬ (containsM r localModels).length = 1 := by omega
    cases interactive with
    | true => simp [hB1, hB, stage]
    | false => simp [hB1, hB, hS1, hS, hC1, hC, stage]

/-! ### Helper lemmas for the resolver -/

theorem mem_of_head_opt {α : Type} {l : List α} {a : α} (h : l.head? = some a) :
    a ∈ l := by
  cases l with
  | nil => simp at h
  | cons b t =>
    simp only [List.head?_cons, Option.some.injEq] at h
    exact h ▸ List.mem_cons_self b t

theorem promptSelect_mem {cands : List String} {sel m : String}
    (h : promptSelect cands sel = some m) : m ∈ cands := by
  unfold promptSelect at h
  split at h
  · split at h
    · exact List.getElem?_mem h
    · simp at h
  · simp at h

/-! ## Claims about the model resolver -/

/-- C3: `resolve_model` applies the strategies in the fixed order
exact match, `requested + ":latest"` exact match, base-name equality,
starts-with match, substring match, returning at the first strategy that
yields exactly one candidate (exact matches short-circuit immediately):
it coincides with the spec's cascade `specCascade` on every input.
In particular `"llama3"` resolves to `"llama3:latest"` and not to
`"llama3-vision:latest"`, and a unique base-name match (`"llama3:8b"`) is
preferred over an ambiguous starts-with/substring match. -/
theorem C3_strategy_cascade_order :
    (∀ (r : String) (localModels : List String) (interactive : Bool) (sel : String),
       resolve_model r localModels interactive sel =
         specCascade r localModels interactive sel)
    ∧ (∀ (interactive : Bool) (sel : String),
         resolve_model "llama3" ["llama3:latest", "llama3-vision:latest"]
           interactive sel = some "llama3:latest")
    ∧ (∀ (interactive : Bool) (sel : String),
         resolve_model "llama3" ["llama3:8b", "llama3-vision:latest"]
           interactive sel = some "llama3:8b") :=
  ⟨resolve_model_eq_specCascade, fun _ _ => rfl, fun _ _ => rfl⟩

/-- C9: with an empty list of available models, `resolve_model` fails
immediately (the `NotFound` outcome, returned as `None`): no matching
strategy is consulted — the function returns on its very first test
(cli_chat.py lines 260-261). -/
theorem C9_empty_models_not_found :
    ∀ (r : String) (interactive : Bool) (sel : String),
      resolve_model r [] interactive sel = none :=
  fun _ _ _ => rfl

/-- C10: every successful resolution returns a name from the available list;
no strategy of the cascade (including the `requested + ":latest"` one, which
is itself a membership test) fabricates a name absent from it. -/
theorem C10_result_mem_available :
    ∀ (r : String) (localModels : List String) (interactive : Bool)
      (sel m : String),
      resolve_model r localModels interactive sel = some m → m ∈ localModels := by
  intro r localModels interactive sel m h
  unfold resolve_model at h
  split_ifs at h with h0 h1 h2 h3 h4 h5 h6 h7 h8
  · obtain rfl := Option.some.inj h
    exact h1
  · obtain rfl := Option.some.inj h
    exact h2
  · exact (List.mem_filter.mp (mem_of_head_opt h)).1
  · exact (List.mem_filter.mp (promptSelect_mem h)).1
  · exact (List.mem_filter.mp (mem_of_head_opt h)).1
  · exact (List.mem_filter.mp (promptSelect_mem h)).1
  · exact (List.mem_filter.mp (mem_of_head_opt h)).1
  · exact (List.mem_filter.mp (promptSelect_mem h)).1

/-- Witness for C10 at a concrete input. -/
theorem C10_result_mem_available_witness :
    ("llama3:latest" : String) ∈ ["llama3:latest", "llama3:8b"] :=
  C10_result_mem_available "llama3" ["llama3:latest", "llama3:8b"] false ""
    "llama3:latest" rfl

/-- C2 counterexample.  The claim fails on the code in two ways, both at
explicit inputs.  (1) At the spec's own example input
(`requestedName = "llama3"`, `availableNames = ["llama3:latest","llama3:8b"]`)
the base-name strategy yields two candidates and `interactionAllowed` is
false, yet resolution does not fail at all: the earlier
`requested + ":latest"` strategy succeeds and returns `"llama3:latest"`.
(2) Even when an ambiguous strategy is actually reached without interaction
(`"lla"` matches both names by starts-with), the result is the plain `None`
— exactly the value returned for `NotFound` (empty list) and for a cancelled
interactive disambiguation — so no distinct `Ambiguous` outcome is
signalled. -/
theorem C2_counterexample :
    (1 < (baseM "llama3" ["llama3:latest", "llama3:8b"]).length
      ∧ resolve_model "llama3" ["llama3:latest", "llama3:8b"] false ""
          = some "llama3:latest")
    ∧ (1 < (startsM "lla" ["llama3:latest", "llama3:8b"]).length
      ∧ resolve_model "lla" ["llama3:latest", "llama3:8b"] false "" = none
      ∧ resolve_model "foo" [] false "" = none
      ∧ resolve_model "lla" ["llama3:latest", "llama3:8b"] true "" = none) := by
  exact ⟨⟨by decide, rfl⟩, by decide, rfl, rfl, rfl⟩

/-- C2 (amended): if no earlier strategy succeeds and the cascade reaches a
strategy yielding more than one candidate (equivalently: no exact or
`:latest` match, no strategy yields exactly one candidate, and the substring
strategy — the superset of all three list strategies — yields more than
one), then with `interactionAllowed = false` resolution fails
deterministically without consulting the selection input; the failure value
is the plain `None` also used for `NotFound` and user cancellation, not a
distinct `Ambiguous` signal. -/
theorem C2_amended_ambiguous_noninteractive_fails :
    ∀ (r : String) (localModels : List String) (sel : String),
      r ∉ localModels →
      (r ++ ":latest") ∉ localModels →
      (baseM r localModels).length ≠ 1 →
      (startsM r localModels).length ≠ 1 →
      1 < (containsM r localModels).length →
      resolve_model r localModels false sel = none := by
  intro r localModels sel h1 h2 hB hS hC
  have hne : localModels.isEmpty = false := by
    cases localModels with
    | nil => simp [containsM] at hC
    | cons a t => rfl
  have hC1 : (containsM r localModels).length ≠ 1 := by omega
  simp [resolve_model, hne, h1, h2, hB, hS, hC1]

/-- Witness for the amended C2 at a concrete input: `"lla"` reaches the
ambiguous starts-with strategy (both available names match) and
non-interactive resolution fails with `None`. -/
theorem C2_amended_witness :
    resolve_model "lla" ["llama3:latest", "llama3:8b"] false "7" = none :=
  C2_amended_ambiguous_noninteractive_fails "lla" ["llama3:latest", "llama3:8b"]
    "7" (by decide) (by decide) (by decide) (by decide) (by decide)

/-- C8: when the cascade reaches a strategy yielding more than one candidate
(no earlier strategy hit) and interaction is allowed, the result is
determined by the typed selection: a (stripped) digit string whose value `n`
lies in `[1, count]` returns the candidate at (1-based) index `n`; any other
input — empty, out of range, non-numeric — signals cancellation and the
result is `None`.  (The numbered list printed before the prompt is terminal
output and is not part of the value-level model.) -/
theorem C8_interactive_disambiguation :
    ∀ (r : String) (localModels : List String) (sel : String)
      (cands : List String),
      r ∉ localModels →
      (r ++ ":latest") ∉ localModels →
      ((1 < (baseM r localModels).length ∧ cands = baseM r localModels)
        ∨ (baseM r localModels = [] ∧ 1 < (startsM r localModels).length
            ∧ cands = startsM r localModels)
        ∨ (baseM r localModels = [] ∧ startsM r localModels = []
            ∧ 1 < (containsM r localModels).length
            ∧ cands = containsM r localModels)) →
      resolve_model r localModels true sel =
        (match parseSelection (pyStrip sel) with
         | some n => if 1 ≤ n ∧ n ≤ cands.length then cands[n - 1]? else none
         | none => none) := by
  intro r localModels sel cands h1 h2 hcase
  rcases hcase with ⟨hB, rfl⟩ | ⟨hB0, hS, rfl⟩ | ⟨hB0, hS0, hC, rfl⟩
  · have hne : localModels.isEmpty = false := by
      cases localModels with
      | nil => simp [baseM] at hB
      | cons a t => rfl
    have hB1 : (baseM r localModels).length ≠ 1 := by omega
    simp [resolve_model, hne, h1, h2, hB1, hB, promptSelect]
  · have hne : localModels.isEmpty = false := by
      cases localModels with
      | nil => simp [startsM] at hS
      | cons a t => rfl
    have hS1 : (startsM r localModels).length ≠ 1 := by omega
    simp [resolve_model, hne, h1, h2, hB0, hS1, hS, promptSelect]
  · have hne : localModels.isEmpty = false := by
      cases localModels with
      | nil => simp [containsM] at hC
      | cons a t => rfl
    have hC1 : (containsM r localModels).length ≠ 1 := by omega
    simp [resolve_model, hne, h1, h2, hB0, hS0, hC1, hC, promptSelect]

/-- Witness for C8 at concrete inputs: `"lla"` matches both available names
by starts-with; selection `"2"` picks the second candidate, while an empty
selection cancels. -/
theorem C8_interactive_disambiguation_witness :
    resolve_model "lla" ["llama3:latest", "llama3:8b"] true "2" = some "llama3:8b"
    ∧ resolve_model "lla" ["llama3:latest", "llama3:8b"] true "" = none := by
  constructor
  · rw [C8_interactive_disambiguation "lla" ["llama3:latest", "llama3:8b"] "2"
      (startsM "lla" ["llama3:latest", "llama3:8b"]) (by decide) (by decide)
      (Or.inr (Or.inl ⟨by decide, by decide, rfl⟩))]
    decide
  · rw [C8_interactive_disambiguation "lla" ["llama3:latest", "llama3:8b"] ""
      (startsM "lla" ["llama3:latest", "llama3:8b"]) (by decide) (by decide)
      (Or.inr (Or.inl ⟨by decide, by decide, rfl⟩))]
    decide

/-! ## Transcript stream reader

Embedding of `stream_response(resp, messages, stop_loading)`
(cli_chat.py lines 349-453).  The response body is modelled after the
per-line decode step: each physical line of `resp.iter_lines` — after the
source's blank-line skip, UTF-8 decode, `strip()` and optional `"data:"`
unframing (lines 373-386) — either fails `json.loads` (modelled as `none`,
treated like a blank line: the loop `continue`s, line 387-390) or yields one
JSON object, modelled as an association list of string keys to JSON values
(spec.md §4.2 guarantees each line is exactly one JSON object or blank, and
the source only ever uses the decoded value as a dict).  Terminal printing
(the char-by-char box drawing, lines 401-414) and the tokens-per-second
display (lines 446-453) carry no transcript state and are not modelled. -/

/-- Decoded JSON values as Python objects, as far as `stream_response`
inspects them (numbers are modelled as integers; the source only ever
forwards them). -/
inductive PyVal : Type where
  | none : PyVal
  | bool : Bool → PyVal
  | int : Int → PyVal
  | str : String → PyVal
  | dict : List (String × PyVal) → PyVal
  | list : List PyVal → PyVal

/-- Python truthiness of a decoded JSON value, used by the
`obj.get('done')` test (line 434): `None`, `False`, `0`, `""` and empty
containers are falsy, everything else truthy. -/
def pyTruthy : PyVal → Bool
  | .none => false
  | .bool b => b
  | .int n => n != 0
  | .str s => s.data != []
  | .dict fields => !fields.isEmpty
  | .list xs => !xs.isEmpty

/-- One decoded JSON object (a Python dict). -/
abbrev Obj : Type := List (String × PyVal)

/-- One line of the streamed body after decoding: `none` when blank or when
`json.loads` failed, `some obj` otherwise. -/
abbrev Line : Type := Option Obj

/-- The local state of `stream_response`'s read loop: `assistant_buf`
(line 351) and the two token counters (lines 367-368; they start as the
Python int `0` and are overwritten by whatever value the key carries). -/
structure StreamState where
  assistant_buf : List String
  eval_count : PyVal
  prompt_eval_count : PyVal

def initState : StreamState :=
  ⟨[], .int 0, .int 0⟩

/-- The `done` test of line 434.  `obj.get('done') or obj.get('done', False)
is True` is truthy exactly when the value stored under `"done"` (defaulting
to `None`) is truthy: the second disjunct (`is True`) can only fire when the
first already did. -/
def fragDone (obj : Obj) : Bool :=
  pyTruthy ((List.lookup "done" obj).getD .none)

/-- The body of the read loop for one decoded object (lines 392-434):
capture `eval_count` and `prompt_eval_count` when the keys are present;
then, if `"message"` maps to a dict, append its non-null `"content"` string
to the buffer, otherwise append a non-null top-level `"response"` string;
finally report whether `done` is truthy (which breaks the loop).
A present-but-non-string, non-null delta value would make the Python
`for char in content` raise and abort the whole turn; such objects are
outside the modelled protocol (see `wfObj`). -/
def readFragment (st : StreamState) (obj : Obj) : StreamState × Bool :=
  let st1 :=
    match List.lookup "eval_count" obj with
    | some v => { st with eval_count := v }
    | Option.none => st
  let st2 :=
    match List.lookup "prompt_eval_count" obj with
    | some v => { st1 with prompt_eval_count := v }
    | Option.none => st1
  let st3 :=
    match List.lookup "message" obj with
    | some (.dict msg) =>
      match List.lookup "content" msg with
      | some (.str s) => { st2 with assistant_buf := st2.assistant_buf ++ [s] }
      | _ => st2
    | _ =>
      match List.lookup "response" obj with
      | some (.str s) => { st2 with assistant_buf := st2.assistant_buf ++ [s] }
      | _ => st2
  (st3, fragDone obj)

/-- The read loop (lines 372-435): blank/undecodable lines are skipped, each
decoded object is processed by `readFragment`, and a truthy `done` breaks;
reaching the end of the line sequence (transport close) ends the loop the
same way. -/
def runLines : StreamState → List Line → StreamState
  | st, [] => st
  | st, Option.none :: rest => runLines st rest
  | st, Option.some obj :: rest =>
    if (readFragment st obj).2 then (readFragment st obj).1
    else runLines (readFragment st obj).1 rest

/-- The final assistant text: `''.join(assistant_buf).strip()` (line 441). -/
def streamText (lines : List Line) : String :=
  pyStrip (String.join (runLines initState lines).assistant_buf)

/-- The `eval_count` value left after consuming the stream. -/
def streamEvalCount (lines : List Line) : PyVal :=
  (runLines initState lines).eval_count

/-- A transcript entry `{'role': ..., 'content': ...}`. -/
structure Message where
  role : String
  content : String
deriving DecidableEq

/-- The transcript effect of `stream_response` on an uninterrupted run
(lines 372-443): consume every line (up to a truthy `done`), then append
one assistant message holding the stripped joined buffer when it is
non-empty, nothing otherwise. -/
def stream_response (lines : List Line) (messages : List Message) :
    List Message :=
  let full := streamText lines
  if full = "" then messages else messages ++ [⟨"assistant", full⟩]

/-- The transcript effect of `stream_response` when a `KeyboardInterrupt`
arrives after `k` lines have been processed: the `except` handler
(lines 436-437) only prints `[Interrupted]`, after which execution falls
through to the very same finalization (lines 441-443) — the loop simply
stops after the first `k` lines. -/
def stream_response_interrupted (lines : List Line) (k : Nat)
    (messages : List Message) : List Message :=
  let full := streamText (lines.take k)
  if full = "" then messages else messages ++ [⟨"assistant", full⟩]

/-- Well-formedness of the modelled delta fields: whichever of
`message.content` / top-level `response` the source would iterate over is
absent, null, or a string.  On any other shape the Python source raises
(aborting the turn) instead of accumulating, so such objects lie outside
the modelled protocol (spec.md §4.2 only ever describes string deltas). -/
def contentOk : Option PyVal → Bool
  | Option.none => true
  | some .none => true
  | some (.str _) => true
  | some _ => false

def wfObj (obj : Obj) : Bool :=
  match List.lookup "message" obj with
  | some (.dict msg) => contentOk (List.lookup "content" msg)
  | _ => contentOk (List.lookup "response" obj)

def wfLines (lines : List Line) : Bool :=
  lines.all (fun l => match l with
    | Option.none => true
    | some obj => wfObj obj)

/-- No fragment of the stream carries a truthy `done` field. -/
def noDone (lines : List Line) : Bool :=
  lines.all (fun l => match l with
    | Option.none => true
    | some obj => !fragDone obj)

/-- One chat turn of the `interactive` loop (cli_chat.py lines 591-614) in
streaming mode, for a plain message `text` (not one of the slash commands):
the user message is appended (line 591), the request is posted, and on a
transport failure (`post_chat` returned `None`, line 607) the just-appended
user message is popped again (line 610); otherwise the streamed body is
consumed by `stream_response`.  `result` carries the posted request's
outcome: `none` for a `RequestException` (connection failure, timeout,
non-2xx status — `post_chat`, lines 228-242), `some lines` for a streaming
body. -/
def interactive_turn (messages : List Message) (text : String)
    (result : Option (List Line)) : List Message :=
  let withUser := messages ++ [⟨"user", text⟩]
  match result with
  | Option.none => withUser.dropLast
  | some lines => stream_response lines withUser

/-! ### Helper lemmas and sample fragments for the stream claims -/

theorem runLines_cons_none (st : StreamState) (rest : List Line) :
    runLines st (Option.none :: rest) = runLines st rest := rfl

theorem runLines_cons_some (st : StreamState) (obj : Obj) (rest : List Line) :
    runLines st (Option.some obj :: rest) =
      if (readFragment st obj).2 then (readFragment st obj).1
      else runLines (readFragment st obj).1 rest := rfl

/-- `{"message":{"content":"Hel"}}` decoded. -/
def fragHel : Line := some [("message", .dict [("content", .str "Hel")])]

/-- `{"message":{"content":"lo"}}` decoded. -/
def fragLo : Line := some [("message", .dict [("content", .str "lo")])]

/-- `{"done":true,"eval_count":5}` decoded. -/
def fragEnd : Line := some [("done", .bool true), ("eval_count", .int 5)]

/-- The three-line example stream of spec.md §8. -/
def sampleLines : List Line := [fragHel, fragLo, fragEnd]

/-! ## Claims about the stream reader -/

/-- C4: feeding the reader `{"message":{"content":"Hel"}}`,
`{"message":{"content":"lo"}}`, `{"done":true,"eval_count":5}` yields final
assistant text `"Hello"` with `eval_count` 5, and exactly one assistant
message appended to any starting transcript; and in general a (well-formed)
stream whose line sequence ends without any truthy `done` fragment is
finalized exactly like a normal completion: the accumulated buffer is
stripped and appended when non-empty. -/
theorem C4_stream_example_and_implicit_completion :
    (∀ msgs : List Message,
       stream_response sampleLines msgs = msgs ++ [⟨"assistant", "Hello"⟩])
    ∧ streamEvalCount sampleLines = .int 5
    ∧ (∀ (lines : List Line) (msgs : List Message),
         wfLines lines = true → noDone lines = true →
         stream_response lines msgs =
           msgs ++ (if streamText lines = "" then []
                    else [⟨"assistant", streamText lines⟩])) := by
  refine ⟨fun msgs => rfl, rfl, ?_⟩
  intro lines msgs _ _
  unfold stream_response
  by_cases h : streamText lines = "" <;> simp [h]

/-- Witness for C4's implicit-completion part: a one-line stream with no
`done` fragment still appends its text. -/
theorem C4_stream_example_witness :
    stream_response [fragHel] [⟨"user", "hi"⟩] =
      [⟨"user", "hi"⟩] ++ (if streamText [fragHel] = "" then []
        else [⟨"assistant", streamText [fragHel]⟩]) :=
  C4_stream_example_and_implicit_completion.2.2 [fragHel] [⟨"user", "hi"⟩]
    (by decide) (by decide)

/-- C5: on an uninterrupted consumption of a (well-formed) stream, a
non-empty stripped buffer appends exactly one
`{'role': 'assistant', 'content': buffer}` at the end of the transcript,
leaving every previously present message in place, and an empty stripped
buffer appends nothing. -/
theorem C5_finalize_appends_at_most_one :
    ∀ (lines : List Line) (msgs : List Message),
      wfLines lines = true →
      (streamText lines ≠ "" →
         stream_response lines msgs = msgs ++ [⟨"assistant", streamText lines⟩]
         ∧ (stream_response lines msgs).length = msgs.length + 1)
      ∧ (streamText lines = "" → stream_response lines msgs = msgs) := by
  intro lines msgs _
  constructor
  · intro h
    constructor <;> simp [stream_response, h]
  · intro h
    simp [stream_response, h]

/-- Witness for C5 at a concrete input. -/
theorem C5_finalize_appends_at_most_one_witness :
    stream_response [fragHel] [⟨"user", "hi"⟩] =
      [⟨"user", "hi"⟩] ++ [⟨"assistant", streamText [fragHel]⟩] :=
  ((C5_finalize_appends_at_most_one [fragHel] [⟨"user", "hi"⟩]
    (by decide)).1 (by decide)).1

/-- C7: a line that fails JSON decoding (modelled `none`) is non-fatal at any
position in the stream: the loop `continue`s over it, it contributes no text
and no counter update, and the remaining lines are consumed exactly as if
the bad line were absent. -/
theorem C7_decode_failure_nonfatal :
    ∀ (st : StreamState) (pre post : List Line),
      runLines st (pre ++ Option.none :: post) = runLines st (pre ++ post) := by
  intro st pre post
  induction pre generalizing st with
  | nil => rfl
  | cons a rest ih =>
    cases a with
    | none =>
      rw [List.cons_append, List.cons_append, runLines_cons_none,
        runLines_cons_none]
      exact ih st
    | some obj =>
      rw [List.cons_append, List.cons_append, runLines_cons_some,
        runLines_cons_some]
      by_cases h : (readFragment st obj).2 <;> simp [h, ih]

/-- C1 counterexample: interrupting `sampleLines` after its first fragment
(`{"message":{"content":"Hel"}}`) does NOT leave the transcript unchanged:
the `except KeyboardInterrupt` handler (line 436) only prints, execution
falls through to lines 441-443, and the partial text `"Hel"` is appended as
an assistant message. -/
theorem C1_counterexample :
    stream_response_interrupted sampleLines 1 [] = [⟨"assistant", "Hel"⟩]
    ∧ stream_response_interrupted sampleLines 1 [] ≠ [] :=
  ⟨by decide, by decide⟩

/-- C1 (amended): an interrupt after `k` fragments stops the read loop
immediately, but the text accumulated so far is NOT discarded: finalization
runs exactly as on a completed stream, appending one assistant message with
the partial (stripped) text when it is non-empty and nothing otherwise; in
the example, the transcript gains `{'role':'assistant','content':'Hel'}`. -/
theorem C1_amended_interrupt_keeps_partial :
    (∀ (lines : List Line) (k : Nat) (msgs : List Message),
       wfLines lines = true →
       stream_response_interrupted lines k msgs =
         msgs ++ (if streamText (lines.take k) = "" then []
                  else [⟨"assistant", streamText (lines.take k)⟩]))
    ∧ stream_response_interrupted sampleLines 1 [] = [⟨"assistant", "Hel"⟩] := by
  constructor
  · intro lines k msgs _
    unfold stream_response_interrupted
    by_cases h : streamText (lines.take k) = "" <;> simp [h]
  · decide

/-- Witness for the amended C1 at a concrete input. -/
theorem C1_amended_witness :
    stream_response_interrupted [fragHel, fragLo] 1 [⟨"user", "hi"⟩] =
      [⟨"user", "hi"⟩] ++ (if streamText ([fragHel, fragLo].take 1) = "" then []
        else [⟨"assistant", streamText ([fragHel, fragLo].take 1)⟩]) :=
  C1_amended_interrupt_keeps_partial.1 [fragHel, fragLo] 1 [⟨"user", "hi"⟩]
    (by decide)

/-- C6: when the chat request of a turn fails with a transport error
(`post_chat` returns `None` after a `RequestException`: connection failure,
timeout, or a non-2xx status via `raise_for_status`), the user message
appended for that turn is popped again and the transcript after the turn
equals the transcript before it. -/
theorem C6_transport_failure_rollback :
    ∀ (msgs : List Message) (text : String),
      interactive_turn msgs text Option.none = msgs := by
  intro msgs text
  simp [interactive_turn]

end CliChat
